import Mathlib

/-!
Verification of src/usb_mapper.c (Windows USB hub/port enumerator).

The C program keeps a global fixed array of device records plus a count,
fills it by traversing all listed USB hub interfaces, and exposes
EnumerateUSBDevices, GetDeviceCount and GetDeviceInfo.  The OS facilities
(SetupDiGetClassDevs, SetupDiEnumDeviceInterfaces,
SetupDiGetDeviceInterfaceDetailA, CreateFileA, DeviceIoControl,
SetupDiGetDeviceRegistryPropertyA) are external collaborators; their
responses for one traversal pass are modelled by a World value: whether the
listing facility initializes, and for each listed hub interface whether the
detail (path) query, the open, and the node-information query succeed, the
reported port count, the per-port connection-query results, and the
device-description property value.
-/

namespace UsbMapper

/-- Embeds MAX_DEVICES (src/usb_mapper.c line 14). -/
def MAX_DEVICES : Nat := 256

/-- Embeds MAX_PATH_LEN (src/usb_mapper.c line 15). -/
def MAX_PATH_LEN : Nat := 512

/-- Embeds MAX_DESC_LEN (src/usb_mapper.c line 16). -/
def MAX_DESC_LEN : Nat := 256

/-- Embeds the Windows USB_CONNECTION_STATUS value DeviceConnected (= 1),
compared against connInfo.ConnectionStatus at line 157. -/
def DeviceConnected : Nat := 1

/-- Embeds the Windows USB_DEVICE_SPEED value UsbLowSpeed (= 0). -/
def UsbLowSpeed : Nat := 0

/-- Embeds the Windows USB_DEVICE_SPEED value UsbFullSpeed (= 1). -/
def UsbFullSpeed : Nat := 1

/-- Embeds the Windows USB_DEVICE_SPEED value UsbHighSpeed (= 2). -/
def UsbHighSpeed : Nat := 2

/-- Embeds the Windows USB_DEVICE_SPEED value UsbSuperSpeed (= 3). -/
def UsbSuperSpeed : Nat := 3

/-- Embeds the fields of USB_NODE_CONNECTION_INFORMATION_EX that
src/usb_mapper.c reads (lines 157-174): connection status, hub flag, raw
speed class, and the vendor/product ids of the device descriptor. -/
structure ConnInfo where
  ConnectionStatus : Nat
  DeviceIsHub : Bool
  Speed : Nat
  idVendor : Nat
  idProduct : Nat
deriving DecidableEq

/-- Models one listed hub interface together with the OS responses the
traversal receives for it: detailOk is success of the second
SetupDiGetDeviceInterfaceDetailA call (line 138), DevicePath the resolved
path, openOk whether CreateFileA returns a valid handle (line 144),
nodeInfoOk whether the IOCTL_USB_GET_NODE_INFORMATION request succeeds
(line 148), numPorts the bNumberOfPorts field of the returned hub
descriptor (line 149), portQuery the result of the per-port
IOCTL_USB_GET_NODE_CONNECTION_INFORMATION_EX request (none = failure,
line 156), and hubDesc the SPDRP_DEVICEDESC property of the hub (none =
lookup failure, lines 178-179). -/
structure HubInterface where
  detailOk : Bool
  DevicePath : String
  openOk : Bool
  nodeInfoOk : Bool
  numPorts : Nat
  portQuery : Nat → Option ConnInfo
  hubDesc : Option String

/-- The OS responses for one whole traversal pass: listingOk is whether
SetupDiGetClassDevs returns a valid handle (lines 108-117), hubs the hub
interfaces yielded by SetupDiEnumDeviceInterfaces in listing order
(line 122). -/
structure World where
  listingOk : Bool
  hubs : List HubInterface

/-- Embeds the USBDeviceInfo struct (src/usb_mapper.c lines 19-28). -/
structure USBDeviceInfo where
  hubIndex : Nat
  portNumber : Nat
  deviceDesc : String
  devicePath : String
  isHub : Nat
  speed : Int
  vendorId : Nat
  productId : Nat
deriving DecidableEq

/-- The all-zero record a memset of the struct produces (char arrays become
empty strings). -/
def zeroRecord : USBDeviceInfo :=
  { hubIndex := 0, portNumber := 0, deviceDesc := "", devicePath := "",
    isHub := 0, speed := 0, vendorId := 0, productId := 0 }

/-- Embeds the global mutable state g_devices and g_deviceCount
(src/usb_mapper.c lines 31-32); the array is modelled as a total function
on indices. -/
structure MapperState where
  g_devices : Nat → USBDeviceInfo
  g_deviceCount : Nat

/-- The state after the reset at the start of EnumerateUSBDevices
(lines 104-105): count zero and the whole array zeroed. -/
def initState : MapperState :=
  { g_devices := fun _ => zeroRecord, g_deviceCount := 0 }

/-- Embeds the speed switch of src/usb_mapper.c lines 168-174:
UsbLowSpeed maps to 0, UsbFullSpeed to 1, UsbHighSpeed to 2, UsbSuperSpeed
to 3, and the default branch yields -1. -/
def mapSpeed (speed : Nat) : Int :=
  match speed with
  | 0 => 0
  | 1 => 1
  | 2 => 2
  | 3 => 3
  | _ => -1

/-- Embeds the record construction of src/usb_mapper.c lines 159-184 for a
connected port: hub index and port number are copied, the hub flag becomes
0/1, vendor/product ids are copied from the device descriptor, the speed is
mapped through the switch, the description is the snprintf composition
"Hub: <name>, Port: <n>" (empty name when the property lookup failed,
truncated to MAX_DESC_LEN - 1 characters), and the hub device path is
copied with strncpy bounded by MAX_PATH_LEN - 1. -/
def buildRecord (hi : Nat) (h : HubInterface) (port : Nat) (ci : ConnInfo) :
    USBDeviceInfo :=
  { hubIndex := hi
    portNumber := port
    deviceDesc :=
      String.take ("Hub: " ++ (Option.getD h.hubDesc "") ++ ", Port: " ++ toString port)
        (MAX_DESC_LEN - 1)
    devicePath := String.take h.DevicePath (MAX_PATH_LEN - 1)
    isHub := if ci.DeviceIsHub then 1 else 0
    speed := mapSpeed ci.Speed
    vendorId := ci.idVendor
    productId := ci.idProduct }

/-- Embeds one iteration of the port loop (src/usb_mapper.c lines 152-190):
if the connection query fails the state is unchanged; if the status is not
DeviceConnected the state is unchanged; otherwise, when capacity remains,
the record is written at index g_deviceCount and the count incremented,
else the record is dropped. -/
def processPort (hi : Nat) (h : HubInterface) (port : Nat) (s : MapperState) :
    MapperState :=
  match h.portQuery port with
  | none => s
  | some ci =>
    if ci.ConnectionStatus = DeviceConnected then
      if s.g_deviceCount < MAX_DEVICES then
        { g_devices := Function.update s.g_devices s.g_deviceCount (buildRecord hi h port ci)
          g_deviceCount := s.g_deviceCount + 1 }
      else s
    else s

/-- Runs the port loop over a list of port numbers in order. -/
def processPorts (hi : Nat) (h : HubInterface) (ports : List Nat) (s : MapperState) :
    MapperState :=
  match ports with
  | [] => s
  | port :: rest => processPorts hi h rest (processPort hi h port s)

/-- Embeds the body of the hub loop for one listed hub (src/usb_mapper.c
lines 126-197): if the detail query, the open, or the node-information
query fails, the hub contributes nothing; otherwise ports 1..numPorts are
processed in order.  CloseHandle and free have no effect on the modelled
state. -/
def processHub (hi : Nat) (h : HubInterface) (s : MapperState) : MapperState :=
  if h.detailOk = true then
    if h.openOk = true then
      if h.nodeInfoOk = true then
        processPorts hi h (List.range' 1 h.numPorts) s
      else s
    else s
  else s

/-- Embeds the hub enumeration loop (src/usb_mapper.c lines 122-199): hubs
are processed in listing order and hubIndex is incremented unconditionally
after each listed hub, whether or not it contributed records. -/
def processHubs (hubs : List HubInterface) (hi : Nat) (s : MapperState) : MapperState :=
  match hubs with
  | [] => s
  | h :: rest => processHubs rest (hi + 1) (processHub hi h s)

/-- Embeds EnumerateUSBDevices (src/usb_mapper.c lines 96-204): the global
state is reset first (lines 104-105); if the listing facility fails to
initialize the function returns -1 (lines 115-117); otherwise the hub loop
runs from hubIndex 0 and the final g_deviceCount is returned.  The result
is the returned int paired with the global state after the call. -/
def EnumerateUSBDevices (w : World) : Int × MapperState :=
  if w.listingOk = true then
    let s := processHubs w.hubs 0 initState
    ((s.g_deviceCount : Int), s)
  else
    (-1, initState)

/-- Embeds GetDeviceCount (src/usb_mapper.c lines 217-219). -/
def GetDeviceCount (s : MapperState) : Int :=
  (s.g_deviceCount : Int)

/-- Embeds GetDeviceInfo (src/usb_mapper.c lines 207-214).  The out
parameter is modelled as an optional buffer (none = NULL pointer); the
result is the returned int, the buffer after the call, and the global state
after the call (the function only reads the globals). -/
def GetDeviceInfo (index : Int) (outInfo : Option USBDeviceInfo) (s : MapperState) :
    Int × Option USBDeviceInfo × MapperState :=
  if index < 0 ∨ (s.g_deviceCount : Int) ≤ index ∨ outInfo = none then
    (0, outInfo, s)
  else
    (1, some (s.g_devices index.toNat), s)

/-- The record stored at index i after a traversal pass on world w. -/
def recordAt (w : World) (i : Nat) : USBDeviceInfo :=
  ((EnumerateUSBDevices w).2).g_devices i

/-- The record count after a traversal pass on world w. -/
def countAfter (w : World) : Nat :=
  ((EnumerateUSBDevices w).2).g_deviceCount

/-- Whether the per-port connection query for this port number succeeds and
reports status DeviceConnected: exactly the ports of this hub that produce
a record attempt in the port loop. -/
def portEligible (h : HubInterface) (port : Nat) : Bool :=
  match h.portQuery port with
  | some ci => ci.ConnectionStatus == DeviceConnected
  | none => false

/-- The number of connected-port records built for one listed hub: zero if
the hub failed before its port loop, otherwise the number of eligible ports
among 1..numPorts. -/
def hubBuiltCount (h : HubInterface) : Nat :=
  if h.detailOk && h.openOk && h.nodeInfoOk then
    (List.filter (portEligible h) (List.range' 1 h.numPorts)).length
  else 0

/-- The total number of connected-port records built during a pass, before
the capacity cap. -/
def builtCount (w : World) : Nat :=
  (List.map hubBuiltCount w.hubs).sum

/-- One traversal step (a port, a hub, or a span of hubs) relates the state
before to the state after: the count only grows, stays within the capacity
bound, already stored records are untouched, and every newly stored record
satisfies P. -/
def StepOK (P : USBDeviceInfo → Prop) (s t : MapperState) : Prop :=
  s.g_deviceCount ≤ t.g_deviceCount ∧
  t.g_deviceCount ≤ max s.g_deviceCount MAX_DEVICES ∧
  (∀ i, i < s.g_deviceCount → t.g_devices i = s.g_devices i) ∧
  (∀ i, s.g_deviceCount ≤ i → i < t.g_deviceCount → P (t.g_devices i))

/-- A newly stored record of one port step: the port's query succeeded
reporting DeviceConnected status, and the record is exactly the one built
from that connection information. -/
def PortRec (hi : Nat) (h : HubInterface) (port : Nat) (r : USBDeviceInfo) : Prop :=
  ∃ ci, h.portQuery port = some ci ∧ ci.ConnectionStatus = DeviceConnected ∧
    r = buildRecord hi h port ci

/-- A newly stored record of one hub step: it comes from some port in
1..numPorts of that hub whose query reported DeviceConnected. -/
def HubRec (hi : Nat) (h : HubInterface) (r : USBDeviceInfo) : Prop :=
  ∃ port, 1 ≤ port ∧ port ≤ h.numPorts ∧ PortRec hi h port r

/-- Concrete connection information of a connected high-speed device, used
to exercise the traversal on explicit inputs. -/
def ciConn : ConnInfo :=
  { ConnectionStatus := 1, DeviceIsHub := false, Speed := 2,
    idVendor := 4660, idProduct := 22136 }

/-- A concrete hub with two ports: port 1 is connected, the query for
port 2 fails. -/
def hubA : HubInterface :=
  { detailOk := true, DevicePath := "path0", openOk := true, nodeInfoOk := true,
    numPorts := 2,
    portQuery := fun port => if port = 1 then some ciConn else none,
    hubDesc := some "Root Hub" }

/-- A concrete hub whose description-property lookup fails; its single port
is connected. -/
def hubNoDesc : HubInterface :=
  { detailOk := true, DevicePath := "path1", openOk := true, nodeInfoOk := true,
    numPorts := 1,
    portQuery := fun _ => some ciConn,
    hubDesc := none }

/-- A concrete hub whose detail query fails. -/
def hubBad : HubInterface :=
  { detailOk := false, DevicePath := "", openOk := false, nodeInfoOk := false,
    numPorts := 0,
    portQuery := fun _ => none,
    hubDesc := none }

/-- A concrete pass whose listing facility works and lists one hub. -/
def wEx : World := { listingOk := true, hubs := [hubA] }

/-- A concrete pass whose listing facility fails to initialize. -/
def wFail : World := { listingOk := false, hubs := [hubA] }

theorem StepOK.of_eq (P : USBDeviceInfo → Prop) {s t : MapperState} (h : t = s) :
    StepOK P s t := by
  subst h
  refine ⟨le_refl _, le_max_left _ _, fun i _ => rfl, fun i h1 h2 => absurd h2 (by omega)⟩

theorem StepOK.mono {P Q : USBDeviceInfo → Prop} {s t : MapperState}
    (hPQ : ∀ r, P r → Q r) (h : StepOK P s t) : StepOK Q s t :=
  ⟨h.1, h.2.1, h.2.2.1, fun i h1 h2 => hPQ _ (h.2.2.2 i h1 h2)⟩

theorem StepOK.trans {P : USBDeviceInfo → Prop} {s t u : MapperState}
    (h1 : StepOK P s t) (h2 : StepOK P t u) : StepOK P s u := by
  obtain ⟨m1, c1, p1, n1⟩ := h1
  obtain ⟨m2, c2, p2, n2⟩ := h2
  refine ⟨le_trans m1 m2, by omega, ?_, ?_⟩
  · intro i hi
    rw [p2 i (by omega), p1 i hi]
  · intro i hlo hhi
    by_cases hmid : i < t.g_deviceCount
    · rw [p2 i hmid]
      exact n1 i hlo hmid
    · exact n2 i (by omega) hhi

theorem processPort_step (hi : Nat) (h : HubInterface) (port : Nat) (s : MapperState) :
    StepOK (PortRec hi h port) s (processPort hi h port s) := by
  cases hq : h.portQuery port with
  | none => exact StepOK.of_eq _ (by simp [processPort, hq])
  | some ci =>
    by_cases hst : ci.ConnectionStatus = DeviceConnected
    · by_cases hcap : s.g_deviceCount < MAX_DEVICES
      · have hpp : processPort hi h port s =
            { g_devices := Function.update s.g_devices s.g_deviceCount
                (buildRecord hi h port ci)
              g_deviceCount := s.g_deviceCount + 1 } := by
          simp [processPort, hq, hst, hcap]
        rw [hpp]
        refine ⟨Nat.le_succ _, by simp; omega, ?_, ?_⟩
        · intro i hi2
          exact Function.update_noteq (by omega) _ _
        · intro i h1 h2
          have hieq : i = s.g_deviceCount := by
            simp only at h2
            omega
          subst hieq
          simp only [Function.update_same]
          exact ⟨ci, hq, hst, rfl⟩
      · exact StepOK.of_eq _ (by simp [processPort, hq, hst, hcap])
    · exact StepOK.of_eq _ (by simp [processPort, hq, hst])

theorem processPorts_step (hi : Nat) (h : HubInterface) (ports : List Nat)
    (s : MapperState) :
    StepOK (fun r => ∃ port ∈ ports, PortRec hi h port r) s
      (processPorts hi h ports s) := by
  induction ports generalizing s with
  | nil => exact StepOK.of_eq _ rfl
  | cons port rest ih =>
    exact StepOK.trans
      (StepOK.mono
        (fun r hr => ⟨port, List.mem_cons_self _ _, hr⟩)
        (processPort_step hi h port s))
      (StepOK.mono
        (fun r hr => by
          obtain ⟨p, hp, hpr⟩ := hr
          exact ⟨p, List.mem_cons_of_mem _ hp, hpr⟩)
        (ih (processPort hi h port s)))

theorem processHub_step (hi : Nat) (h : HubInterface) (s : MapperState) :
    StepOK (fun r => h.detailOk = true ∧ h.openOk = true ∧ h.nodeInfoOk = true ∧
      HubRec hi h r) s (processHub hi h s) := by
  unfold processHub
  by_cases h1 : h.detailOk = true
  · rw [if_pos h1]
    by_cases h2 : h.openOk = true
    · rw [if_pos h2]
      by_cases h3 : h.nodeInfoOk = true
      · rw [if_pos h3]
        refine StepOK.mono ?_ (processPorts_step hi h (List.range' 1 h.numPorts) s)
        rintro r ⟨port, hmem, hpr⟩
        rw [List.mem_range'_1] at hmem
        exact ⟨h1, h2, h3, port, hmem.1, by omega, hpr⟩
      · rw [if_neg h3]; exact StepOK.of_eq _ rfl
    · rw [if_neg h2]; exact StepOK.of_eq _ rfl
  · rw [if_neg h1]; exact StepOK.of_eq _ rfl

theorem processHubs_step (hubs : List HubInterface) (hi : Nat) (s : MapperState) :
    StepOK (fun r => ∃ j h, hubs[j]? = some h ∧ h.detailOk = true ∧
      h.openOk = true ∧ h.nodeInfoOk = true ∧ HubRec (hi + j) h r) s
      (processHubs hubs hi s) := by
  induction hubs generalizing hi s with
  | nil => exact StepOK.of_eq _ rfl
  | cons h rest ih =>
    exact StepOK.trans
      (StepOK.mono
        (fun r hr => by
          obtain ⟨h1, h2, h3, hr⟩ := hr
          exact ⟨0, h, by simp, h1, h2, h3, by simpa using hr⟩)
        (processHub_step hi h s))
      (StepOK.mono
        (fun r hr => by
          obtain ⟨j, h', hget, h1, h2, h3, hr⟩ := hr
          refine ⟨j + 1, h', by simpa using hget, h1, h2, h3, ?_⟩
          have hadd : hi + 1 + j = hi + (j + 1) := by omega
          rwa [hadd] at hr)
        (ih (hi + 1) (processHub hi h s)))

/-- Every record stored by a traversal pass comes from a hub at some listed
position j that passed its detail, open and node-information steps, and
from a port in 1..numPorts of that hub whose connection query reported
DeviceConnected; the record is exactly the one built there. -/
theorem enumerate_records (w : World) (i : Nat) (hcnt : i < countAfter w) :
    ∃ j h, w.hubs[j]? = some h ∧ h.detailOk = true ∧ h.openOk = true ∧
      h.nodeInfoOk = true ∧ ∃ port ci, 1 ≤ port ∧ port ≤ h.numPorts ∧
      h.portQuery port = some ci ∧ ci.ConnectionStatus = DeviceConnected ∧
      recordAt w i = buildRecord j h port ci := by
  unfold countAfter recordAt EnumerateUSBDevices at *
  by_cases hl : w.listingOk = true
  · rw [if_pos hl] at hcnt ⊢
    have hstep := processHubs_step w.hubs 0 initState
    have hnew := hstep.2.2.2 i (Nat.zero_le _) hcnt
    obtain ⟨j, h, hget, h1, h2, h3, port, hp1, hp2, hpr⟩ := hnew
    obtain ⟨ci, hq, hst, hr⟩ := hpr
    exact ⟨j, h, hget, h1, h2, h3, port, ci, hp1, hp2, hq, hst, by simpa using hr⟩
  · rw [if_neg hl] at hcnt
    exact absurd hcnt (by simp [initState])

/-- A port whose connection query fails, or reports a status other than
DeviceConnected, leaves the state untouched. -/
theorem processPort_not_eligible (hi : Nat) (h : HubInterface) (port : Nat)
    (s : MapperState) (hne : portEligible h port = false) :
    processPort hi h port s = s := by
  cases hq : h.portQuery port with
  | none => simp [processPort, hq]
  | some ci =>
    have hst : ¬ ci.ConnectionStatus = DeviceConnected := by
      simpa [portEligible, hq] using hne
    simp [processPort, hq, hst]

theorem processPort_count (hi : Nat) (h : HubInterface) (port : Nat) (s : MapperState)
    (hs : s.g_deviceCount ≤ MAX_DEVICES) :
    (processPort hi h port s).g_deviceCount =
      min (s.g_deviceCount + (if portEligible h port then 1 else 0)) MAX_DEVICES := by
  by_cases he : portEligible h port = true
  · rw [if_pos he]
    obtain ⟨ci, hq, hst⟩ : ∃ ci, h.portQuery port = some ci ∧
        ci.ConnectionStatus = DeviceConnected := by
      unfold portEligible at he
      cases hq : h.portQuery port with
      | none => rw [hq] at he; cases he
      | some ci => rw [hq] at he; exact ⟨ci, rfl, by simpa using he⟩
    by_cases hcap : s.g_deviceCount < MAX_DEVICES
    · have hpp : (processPort hi h port s).g_deviceCount = s.g_deviceCount + 1 := by
        simp [processPort, hq, hst, hcap]
      rw [hpp]; omega
    · have hpp : (processPort hi h port s).g_deviceCount = s.g_deviceCount := by
        simp [processPort, hq, hst, hcap]
      rw [hpp]; omega
  · rw [if_neg he, processPort_not_eligible hi h port s (by simpa using he)]
    omega

theorem processPort_count_le (hi : Nat) (h : HubInterface) (port : Nat)
    (s : MapperState) (hs : s.g_deviceCount ≤ MAX_DEVICES) :
    (processPort hi h port s).g_deviceCount ≤ MAX_DEVICES := by
  rw [processPort_count hi h port s hs]
  omega

theorem processPorts_count (hi : Nat) (h : HubInterface) (ports : List Nat)
    (s : MapperState) (hs : s.g_deviceCount ≤ MAX_DEVICES) :
    (processPorts hi h ports s).g_deviceCount =
      min (s.g_deviceCount + (List.filter (portEligible h) ports).length)
        MAX_DEVICES := by
  induction ports generalizing s with
  | nil =>
    simp only [processPorts, List.filter_nil, List.length_nil]
    omega
  | cons port rest ih =>
    have h1 := processPort_count hi h port s hs
    have h2 := ih (processPort hi h port s) (processPort_count_le hi h port s hs)
    show (processPorts hi h rest (processPort hi h port s)).g_deviceCount = _
    rw [h2, h1]
    by_cases he : portEligible h port
    · simp only [List.filter_cons, he, if_true, List.length_cons]
      omega
    · simp only [List.filter_cons, he, if_false, Bool.false_eq_true]
      omega

theorem processHub_count (hi : Nat) (h : HubInterface) (s : MapperState)
    (hs : s.g_deviceCount ≤ MAX_DEVICES) :
    (processHub hi h s).g_deviceCount =
      min (s.g_deviceCount + hubBuiltCount h) MAX_DEVICES := by
  by_cases h1 : h.detailOk = true
  · by_cases h2 : h.openOk = true
    · by_cases h3 : h.nodeInfoOk = true
      · have hp : processHub hi h s = processPorts hi h (List.range' 1 h.numPorts) s := by
          simp [processHub, h1, h2, h3]
        have hb : hubBuiltCount h =
            (List.filter (portEligible h) (List.range' 1 h.numPorts)).length := by
          simp [hubBuiltCount, h1, h2, h3]
        rw [hp, hb]
        exact processPorts_count hi h (List.range' 1 h.numPorts) s hs
      · have hp : processHub hi h s = s := by simp [processHub, h3]
        have hb : hubBuiltCount h = 0 := by simp [hubBuiltCount, h3]
        rw [hp, hb]; omega
    · have hp : processHub hi h s = s := by simp [processHub, h2]
      have hb : hubBuiltCount h = 0 := by simp [hubBuiltCount, h2]
      rw [hp, hb]; omega
  · have hp : processHub hi h s = s := by simp [processHub, h1]
    have hb : hubBuiltCount h = 0 := by simp [hubBuiltCount, h1]
    rw [hp, hb]; omega

theorem processHubs_count (hubs : List HubInterface) (hi : Nat) (s : MapperState)
    (hs : s.g_deviceCount ≤ MAX_DEVICES) :
    (processHubs hubs hi s).g_deviceCount =
      min (s.g_deviceCount + (List.map hubBuiltCount hubs).sum) MAX_DEVICES := by
  induction hubs generalizing hi s with
  | nil =>
    simp only [processHubs, List.map_nil, List.sum_nil]
    omega
  | cons h rest ih =>
    have h1 := processHub_count hi h s hs
    have hle : (processHub hi h s).g_deviceCount ≤ MAX_DEVICES := by
      rw [h1]; omega
    have h2 := ih (hi + 1) (processHub hi h s) hle
    show (processHubs rest (hi + 1) (processHub hi h s)).g_deviceCount = _
    rw [h2, h1]
    simp only [List.map_cons, List.sum_cons]
    omega

/-- The total record count after a pass with a working listing facility is
the number of connected-port records built, capped at MAX_DEVICES. -/
theorem countAfter_eq (w : World) (hw : w.listingOk = true) :
    countAfter w = min (builtCount w) MAX_DEVICES := by
  unfold countAfter EnumerateUSBDevices builtCount
  rw [if_pos hw]
  have h := processHubs_count w.hubs 0 initState (by simp [initState, MAX_DEVICES])
  simpa [initState] using h

theorem countAfter_le (w : World) : countAfter w ≤ MAX_DEVICES := by
  by_cases hw : w.listingOk = true
  · rw [countAfter_eq w hw]; omega
  · unfold countAfter EnumerateUSBDevices
    rw [if_neg hw]
    simp [initState, MAX_DEVICES]

theorem processPorts_append (hi : Nat) (h : HubInterface) (l₁ l₂ : List Nat)
    (s : MapperState) :
    processPorts hi h (l₁ ++ l₂) s = processPorts hi h l₂ (processPorts hi h l₁ s) := by
  induction l₁ generalizing s with
  | nil => rfl
  | cons port rest ih =>
    show processPorts hi h (rest ++ l₂) (processPort hi h port s) = _
    exact ih (processPort hi h port s)

/-- C1: every record emitted by a traversal pass has portNumber in
[1, portCount] as reported by the node-information query of its owning hub,
hubIndex in [0, number of listed hubs - 1], and corresponds to a port whose
connection status was DeviceConnected at query time; no record is emitted
for a port whose status was anything else. -/
theorem enumerate_record_bounds_connected (w : World) (i : Nat)
    (hcnt : i < countAfter w) :
    (recordAt w i).hubIndex < w.hubs.length ∧
    ∃ h, w.hubs[(recordAt w i).hubIndex]? = some h ∧
      1 ≤ (recordAt w i).portNumber ∧ (recordAt w i).portNumber ≤ h.numPorts ∧
      ∃ ci, h.portQuery (recordAt w i).portNumber = some ci ∧
        ci.ConnectionStatus = DeviceConnected := by
  obtain ⟨j, h, hget, h1, h2, h3, port, ci, hp1, hp2, hq, hst, hr⟩ :=
    enumerate_records w i hcnt
  have hhub : (recordAt w i).hubIndex = j := by rw [hr]; rfl
  have hport : (recordAt w i).portNumber = port := by rw [hr]; rfl
  rw [hhub, hport]
  obtain ⟨hlen, -⟩ := List.getElem?_eq_some.mp hget
  exact ⟨hlen, h, hget, hp1, hp2, ci, hq, hst⟩

theorem enumerate_record_bounds_connected_witness :
    (recordAt wEx 0).hubIndex < wEx.hubs.length ∧
    ∃ h, wEx.hubs[(recordAt wEx 0).hubIndex]? = some h ∧
      1 ≤ (recordAt wEx 0).portNumber ∧ (recordAt wEx 0).portNumber ≤ h.numPorts ∧
      ∃ ci, h.portQuery (recordAt wEx 0).portNumber = some ci ∧
        ci.ConnectionStatus = DeviceConnected :=
  enumerate_record_bounds_connected wEx 0 (by decide)

/-- C2: with a working listing facility, the value EnumerateUSBDevices
returns equals the value GetDeviceCount subsequently returns, and both
equal the number of connected-port records built during the pass capped at
MAX_DEVICES; once the cap is reached further records are dropped while
enumeration of the remaining ports and hubs continues, which is what the
min over the full built count expresses. -/
theorem enumerate_count_consistent (w : World) (hw : w.listingOk = true) :
    (EnumerateUSBDevices w).1 = GetDeviceCount (EnumerateUSBDevices w).2 ∧
    countAfter w = min (builtCount w) MAX_DEVICES := by
  constructor
  · simp [EnumerateUSBDevices, GetDeviceCount, hw]
  · exact countAfter_eq w hw

theorem enumerate_count_consistent_witness :
    (EnumerateUSBDevices wEx).1 = GetDeviceCount (EnumerateUSBDevices wEx).2 ∧
    countAfter wEx = min (builtCount wEx) MAX_DEVICES :=
  enumerate_count_consistent wEx rfl

/-- C3: EnumerateUSBDevices returns -1 exactly when the hub-class listing
facility fails to initialize, and this is the only condition under which it
returns a negative value: every other failure leaves the return value equal
to the non-negative record count. -/
theorem enumerate_fatal_sentinel (w : World) :
    ((EnumerateUSBDevices w).1 = -1 ↔ w.listingOk = false) ∧
    ((EnumerateUSBDevices w).1 < 0 ↔ w.listingOk = false) := by
  by_cases hw : w.listingOk = true
  · have h1 : (EnumerateUSBDevices w).1 =
        ((processHubs w.hubs 0 initState).g_deviceCount : Int) := by
      simp [EnumerateUSBDevices, hw]
    rw [h1]
    constructor
    · constructor
      · intro hc
        exact absurd hc (by omega)
      · intro hf
        simp [hw] at hf
    · constructor
      · intro hc
        exact absurd hc (by omega)
      · intro hf
        simp [hw] at hf
  · have hf : w.listingOk = false := by simpa using hw
    have h1 : (EnumerateUSBDevices w).1 = -1 := by
      simp [EnumerateUSBDevices, hf]
    rw [h1]
    constructor
    · exact iff_of_true rfl hf
    · exact iff_of_true (by omega) hf

theorem enumerate_fatal_sentinel_witness :
    (EnumerateUSBDevices wFail).1 = -1 :=
  (enumerate_fatal_sentinel wFail).1.mpr rfl

/-- C4: the speed mapping is total and deterministic: UsbLowSpeed maps to
0, UsbFullSpeed to 1, UsbHighSpeed to 2, UsbSuperSpeed to 3, every other
input maps to -1, which is distinct from the four valid codes; and the
speed field of every emitted record is the image of its port's raw speed
class under this mapping. -/
theorem speed_mapping_total :
    mapSpeed UsbLowSpeed = 0 ∧ mapSpeed UsbFullSpeed = 1 ∧
    mapSpeed UsbHighSpeed = 2 ∧ mapSpeed UsbSuperSpeed = 3 ∧
    (∀ n : Nat, n ≠ UsbLowSpeed → n ≠ UsbFullSpeed → n ≠ UsbHighSpeed →
      n ≠ UsbSuperSpeed → mapSpeed n = -1) ∧
    ((-1 : Int) ≠ 0 ∧ (-1 : Int) ≠ 1 ∧ (-1 : Int) ≠ 2 ∧ (-1 : Int) ≠ 3) ∧
    (∀ (w : World) (i : Nat), i < countAfter w → ∃ h ci,
      w.hubs[(recordAt w i).hubIndex]? = some h ∧
      h.portQuery (recordAt w i).portNumber = some ci ∧
      (recordAt w i).speed = mapSpeed ci.Speed) := by
  refine ⟨rfl, rfl, rfl, rfl, ?_, by norm_num, ?_⟩
  · intro n h0 h1 h2 h3
    have h4 : 4 ≤ n := by
      simp only [UsbLowSpeed, UsbFullSpeed, UsbHighSpeed, UsbSuperSpeed] at h0 h1 h2 h3
      omega
    obtain ⟨m, rfl⟩ : ∃ m, n = m + 4 := ⟨n - 4, by omega⟩
    rfl
  · intro w i hcnt
    obtain ⟨j, h, hget, _, _, _, port, ci, _, _, hq, _, hr⟩ :=
      enumerate_records w i hcnt
    have hhub : (recordAt w i).hubIndex = j := by rw [hr]; rfl
    have hport : (recordAt w i).portNumber = port := by rw [hr]; rfl
    have hspeed : (recordAt w i).speed = mapSpeed ci.Speed := by rw [hr]; rfl
    rw [hhub, hport]
    exact ⟨h, ci, hget, hq, hspeed⟩

theorem speed_mapping_total_witness :
    mapSpeed 7 = -1 :=
  speed_mapping_total.2.2.2.2.1 7 (by decide) (by decide) (by decide) (by decide)

/-- C5: GetDeviceInfo returns 0 leaving the output buffer untouched for
every negative index and every index at or above the current count, and
returns 1 copying out the stored record for every index in [0, count - 1];
for a state produced by a traversal pass the record copied out is one built
during that pass from a connected port, never a zeroed or stale one. -/
theorem getDeviceInfo_range_spec :
    (∀ (index : Int) (buf : USBDeviceInfo) (s : MapperState),
      index < 0 ∨ (s.g_deviceCount : Int) ≤ index →
      GetDeviceInfo index (some buf) s = (0, some buf, s)) ∧
    (∀ (index : Int) (buf : USBDeviceInfo) (s : MapperState),
      0 ≤ index → index < (s.g_deviceCount : Int) →
      GetDeviceInfo index (some buf) s = (1, some (s.g_devices index.toNat), s)) ∧
    (∀ (w : World) (index : Int) (buf : USBDeviceInfo),
      0 ≤ index → index < (countAfter w : Int) →
      ∃ j h port ci, w.hubs[j]? = some h ∧ h.portQuery port = some ci ∧
        ci.ConnectionStatus = DeviceConnected ∧
        GetDeviceInfo index (some buf) (EnumerateUSBDevices w).2 =
          (1, some (buildRecord j h port ci), (EnumerateUSBDevices w).2)) := by
  have hsucc : ∀ (index : Int) (buf : USBDeviceInfo) (s : MapperState),
      0 ≤ index → index < (s.g_deviceCount : Int) →
      GetDeviceInfo index (some buf) s = (1, some (s.g_devices index.toNat), s) := by
    intro index buf s h0 hlt
    unfold GetDeviceInfo
    rw [if_neg]
    rintro (hc | hc | hc)
    · omega
    · omega
    · exact Option.noConfusion hc
  refine ⟨?_, hsucc, ?_⟩
  · intro index buf s hout
    unfold GetDeviceInfo
    rw [if_pos]
    rcases hout with hc | hc
    · exact Or.inl hc
    · exact Or.inr (Or.inl hc)
  · intro w index buf h0 hlt
    have hnat : index.toNat < countAfter w := by omega
    obtain ⟨j, h, hget, _, _, _, port, ci, _, _, hq, hst, hr⟩ :=
      enumerate_records w index.toNat hnat
    refine ⟨j, h, port, ci, hget, hq, hst, ?_⟩
    rw [hsucc index buf (EnumerateUSBDevices w).2 h0 hlt]
    unfold recordAt at hr
    rw [hr]

theorem getDeviceInfo_range_spec_witness :
    GetDeviceInfo (-1) (some zeroRecord) initState = (0, some zeroRecord, initState) ∧
    GetDeviceInfo 0 (some zeroRecord) (EnumerateUSBDevices wEx).2 =
      (1, some (((EnumerateUSBDevices wEx).2).g_devices (Int.toNat 0)),
        (EnumerateUSBDevices wEx).2) :=
  ⟨getDeviceInfo_range_spec.1 (-1) zeroRecord initState (Or.inl (by decide)),
   getDeviceInfo_range_spec.2.1 0 zeroRecord (EnumerateUSBDevices wEx).2
     (by decide) (by decide)⟩

/-- C6: hubIndex is assigned sequentially from 0 in listing order and is
consumed even by hubs whose detail query, open or node-information query
fails: such a hub leaves the state unchanged and so contributes zero
records, and consequently every emitted record's hubIndex is the listed
position of a hub that passed all three steps. -/
theorem hubIndex_sequential_failed_hubs_absent :
    (∀ (hi : Nat) (h : HubInterface) (s : MapperState),
      h.detailOk = false ∨ h.openOk = false ∨ h.nodeInfoOk = false →
      processHub hi h s = s) ∧
    (∀ (hubs : List HubInterface) (h : HubInterface) (hi : Nat) (s : MapperState),
      processHubs (h :: hubs) hi s = processHubs hubs (hi + 1) (processHub hi h s)) ∧
    (∀ (w : World) (i : Nat), i < countAfter w →
      ∃ h, w.hubs[(recordAt w i).hubIndex]? = some h ∧
        h.detailOk = true ∧ h.openOk = true ∧ h.nodeInfoOk = true) := by
  refine ⟨?_, fun hubs h hi s => rfl, ?_⟩
  · intro hi h s hfail
    rcases hfail with hf | hf | hf
    · simp [processHub, hf]
    · simp [processHub, hf]
    · simp [processHub, hf]
  · intro w i hcnt
    obtain ⟨j, h, hget, h1, h2, h3, _, _, _, _, _, _, hr⟩ :=
      enumerate_records w i hcnt
    have hhub : (recordAt w i).hubIndex = j := by rw [hr]; rfl
    rw [hhub]
    exact ⟨h, hget, h1, h2, h3⟩

theorem hubIndex_sequential_failed_hubs_absent_witness :
    processHub 0 hubBad initState = initState :=
  hubIndex_sequential_failed_hubs_absent.1 0 hubBad initState (Or.inl rfl)

/-- C7: a port whose connection query fails or reports a non-connected
status contributes zero records (the state is unchanged), and running the
port loop with that port present yields exactly the same state as running
it with that port removed, so sibling ports and all remaining hubs see the
very state they would had the port not existed. -/
theorem port_failure_isolated (hi : Nat) (h : HubInterface) (port : Nat)
    (l₁ l₂ : List Nat) (s : MapperState) (hne : portEligible h port = false) :
    processPort hi h port s = s ∧
    processPorts hi h (l₁ ++ port :: l₂) s = processPorts hi h (l₁ ++ l₂) s := by
  refine ⟨processPort_not_eligible hi h port s hne, ?_⟩
  rw [processPorts_append, processPorts_append]
  show processPorts hi h l₂ (processPort hi h port (processPorts hi h l₁ s)) = _
  rw [processPort_not_eligible hi h port _ hne]

theorem port_failure_isolated_witness :
    processPort 0 hubA 2 initState = initState ∧
    processPorts 0 hubA ([1] ++ 2 :: []) initState =
      processPorts 0 hubA ([1] ++ []) initState :=
  port_failure_isolated 0 hubA 2 [1] [] initState (by decide)

/-- C8: when the hub's description-property lookup fails for a connected
port, the record is still appended (the count grows and the record is
stored) and its description is the composed string with an empty hub-name
substring, "Hub: , Port: N" for port N. -/
theorem desc_failure_still_emitted (hi : Nat) (h : HubInterface) (port : Nat)
    (ci : ConnInfo) (s : MapperState) (hq : h.portQuery port = some ci)
    (hst : ci.ConnectionStatus = DeviceConnected) (hd : h.hubDesc = none)
    (hcap : s.g_deviceCount < MAX_DEVICES) :
    (processPort hi h port s).g_deviceCount = s.g_deviceCount + 1 ∧
    (processPort hi h port s).g_devices s.g_deviceCount = buildRecord hi h port ci ∧
    (buildRecord hi h port ci).deviceDesc =
      String.take ("Hub: , Port: " ++ toString port) (MAX_DESC_LEN - 1) := by
  have hpp : processPort hi h port s =
      { g_devices := Function.update s.g_devices s.g_deviceCount
          (buildRecord hi h port ci)
        g_deviceCount := s.g_deviceCount + 1 } := by
    simp [processPort, hq, hst, hcap]
  refine ⟨by rw [hpp], ?_, ?_⟩
  · rw [hpp]
    exact Function.update_same _ _ _
  · have hlit : ("Hub: " ++ ", Port: " : String) = "Hub: , Port: " := rfl
    simp only [buildRecord, hd, Option.getD_none, String.append_empty, hlit]

theorem desc_failure_still_emitted_witness :
    (processPort 0 hubNoDesc 1 initState).g_deviceCount =
      initState.g_deviceCount + 1 ∧
    (processPort 0 hubNoDesc 1 initState).g_devices initState.g_deviceCount =
      buildRecord 0 hubNoDesc 1 ciConn ∧
    (buildRecord 0 hubNoDesc 1 ciConn).deviceDesc =
      String.take ("Hub: , Port: " ++ toString 1) (MAX_DESC_LEN - 1) :=
  desc_failure_still_emitted 0 hubNoDesc 1 ciConn initState rfl rfl rfl (by decide)

/-- C9: when the listing facility fails and EnumerateUSBDevices returns the
sentinel -1, the store has already been reset: GetDeviceCount on the
resulting state is 0 and GetDeviceInfo reports not-found for every index
and buffer, so no records of a previous pass remain retrievable. -/
theorem fatal_resets_store (w : World) (hw : w.listingOk = false) :
    (EnumerateUSBDevices w).1 = -1 ∧
    GetDeviceCount (EnumerateUSBDevices w).2 = 0 ∧
    ∀ (index : Int) (buf : Option USBDeviceInfo),
      GetDeviceInfo index buf (EnumerateUSBDevices w).2 =
        (0, buf, (EnumerateUSBDevices w).2) := by
  have he : EnumerateUSBDevices w = (-1, initState) := by
    simp [EnumerateUSBDevices, hw]
  rw [he]
  refine ⟨rfl, rfl, ?_⟩
  intro index buf
  unfold GetDeviceInfo
  rw [if_pos]
  rcases lt_or_ge index 0 with hc | hc
  · exact Or.inl hc
  · refine Or.inr (Or.inl ?_)
    show ((initState.g_deviceCount : Nat) : Int) ≤ index
    simp only [initState]
    omega

theorem fatal_resets_store_witness :
    (EnumerateUSBDevices wFail).1 = -1 ∧
    GetDeviceCount (EnumerateUSBDevices wFail).2 = 0 ∧
    GetDeviceInfo 3 (some zeroRecord) (EnumerateUSBDevices wFail).2 =
      (0, some zeroRecord, (EnumerateUSBDevices wFail).2) :=
  ⟨(fatal_resets_store wFail rfl).1, (fatal_resets_store wFail rfl).2.1,
   (fatal_resets_store wFail rfl).2.2 3 (some zeroRecord)⟩

/-- C10: GetDeviceInfo called with a null output pointer returns 0 without
writing through the pointer, and on every failing call (null pointer or
out-of-range index) the output buffer and the global store come back
exactly as they went in. -/
theorem getDeviceInfo_null_safe :
    (∀ (index : Int) (s : MapperState),
      GetDeviceInfo index none s = (0, none, s)) ∧
    (∀ (index : Int) (buf : Option USBDeviceInfo) (s : MapperState),
      index < 0 ∨ (s.g_deviceCount : Int) ≤ index ∨ buf = none →
      GetDeviceInfo index buf s = (0, buf, s)) := by
  constructor
  · intro index s
    unfold GetDeviceInfo
    rw [if_pos (Or.inr (Or.inr rfl))]
  · intro index buf s hcond
    unfold GetDeviceInfo
    rw [if_pos hcond]

theorem getDeviceInfo_null_safe_witness :
    GetDeviceInfo 5 none initState = (0, none, initState) ∧
    GetDeviceInfo 99 (some zeroRecord) initState =
      (0, some zeroRecord, initState) :=
  ⟨getDeviceInfo_null_safe.1 5 initState,
   getDeviceInfo_null_safe.2 99 (some zeroRecord) initState
     (Or.inr (Or.inl (by decide)))⟩

end UsbMapper
